import Mathlib

/-
  Verification of mod-spdy core components.

  Shallow embedding of:
  - the SPDY/2 header-block codec and frame codec (declared in
    src/net/spdy/spdy_framer.h; the implementation file is not in the
    repository snapshot, so the bodies are modelled from the spec),
  - the Apache hook functions in src/mod_spdy/mod_spdy.cc,
  - InputFilterInputStream in
    src/mod_spdy/apache/input_filter_input_stream.cc.

  Bytes are modelled as natural numbers (values < 256 where it matters,
  with explicit % 256 at encoding sites); byte strings as List Nat.
-/

namespace Spdy

/-! ## Header-block codec (spec section 4.2, SpdyFramer::ParseHeaderBlock) -/

/-- A header block as an ordered list of (name, value) pairs, each a byte
string.  The wire format carries them in this order. -/
abbrev HeaderBlock := List (List Nat × List Nat)

/-- Big-endian 16-bit encoding of a natural number (two bytes). -/
def be16 (n : Nat) : List Nat := [n / 256 % 256, n % 256]

/-- Read a big-endian 16-bit integer from the front of a byte list. -/
def readBe16 : List Nat → Option (Nat × List Nat)
  | a :: b :: rest => some (a * 256 + b, rest)
  | _ => none

/-- Modelled from the spec: a length-prefixed string in a header block is a
16-bit big-endian length followed by that many bytes (spec section 4.2; the
body of SpdyFramer::ParseHeaderBlock is absent from the snapshot). -/
def encodeStr (s : List Nat) : List Nat := be16 s.length ++ s

/-- Modelled from the spec: serialize the pairs of a header block, each as a
length-prefixed name followed by a length-prefixed value. -/
def encodePairs : HeaderBlock → List Nat
  | [] => []
  | (n, v) :: rest => encodeStr n ++ encodeStr v ++ encodePairs rest

/-- Modelled from the spec: encode a header block as a 16-bit big-endian
count of pairs followed by the serialized pairs (spec section 4.2). -/
def encodeHeaderBlock (h : HeaderBlock) : List Nat :=
  be16 h.length ++ encodePairs h

/-- Read one length-prefixed string from the front of a byte list, failing
if fewer bytes remain than the prefix claims. -/
def readStr (bytes : List Nat) : Option (List Nat × List Nat) :=
  match readBe16 bytes with
  | none => none
  | some (len, rest) =>
    if rest.length < len then none else some (rest.take len, rest.drop len)

/-- Read a given number of (name, value) pairs from the front of a byte
list. -/
def readPairs : Nat → List Nat → Option (HeaderBlock × List Nat)
  | 0, bytes => some ([], bytes)
  | count + 1, bytes =>
    match readStr bytes with
    | none => none
    | some (n, r1) =>
      match readStr r1 with
      | none => none
      | some (v, r2) =>
        match readPairs count r2 with
        | none => none
        | some (rest, r3) => some ((n, v) :: rest, r3)

/-- Modelled from the spec: decode a header block from its serialized bytes
(the body of SpdyFramer::ParseHeaderBlock is absent from the snapshot).
Reads the pair count and then that many pairs; fails on trailing bytes
(spec: if decompression yields fewer or more bytes than the frame claimed,
fail the frame) and on duplicated names (spec section 4.2 decoding
strictness). -/
def ParseHeaderBlock (bytes : List Nat) : Option HeaderBlock :=
  match readBe16 bytes with
  | none => none
  | some (count, rest) =>
    match readPairs count rest with
    | none => none
    | some (pairs, leftover) =>
      if leftover = [] then
        if (pairs.map Prod.fst).Nodup then some pairs else none
      else none

/-- Big-endian 32-bit encoding of a natural number (four bytes). -/
def be32 (n : Nat) : List Nat :=
  [n / 16777216 % 256, n / 65536 % 256, n / 256 % 256, n % 256]

/-- Modelled from the spec: the bytes of a (non-compressed) SYN_STREAM
control frame as built by SpdyFramer::CreateSynStream, whose body is absent
from the snapshot.  The common 8-byte header (control bit, version 2, type,
flags, 24-bit length) is followed by the 31-bit stream id, the associated
stream id, a priority/unused 16-bit field, and the serialized header
block. -/
def CreateSynStream (streamId assocId pri flags : Nat) (h : HeaderBlock) :
    List Nat :=
  let block := encodeHeaderBlock h
  let payloadLen := 10 + block.length
  [128, 2, 0, 1, flags % 256,
   payloadLen / 65536 % 256, payloadLen / 256 % 256, payloadLen % 256] ++
  be32 (streamId % 2 ^ 31) ++ be32 (assocId % 2 ^ 31) ++
  [(pri % 4) * 64, 0] ++ block

/-- Extract and decode the header block of a serialized SYN_STREAM frame;
the header data begins after the 18 fixed bytes
(SpdySynStreamControlFrame::size()). -/
def parseSynStreamHeaderBlock (frame : List Nat) : Option HeaderBlock :=
  ParseHeaderBlock (frame.drop 18)

/-! ### Round-trip lemmas for the header-block codec -/

theorem readBe16_be16 (n : Nat) (hn : n < 65536) (rest : List Nat) :
    readBe16 (be16 n ++ rest) = some (n, rest) := by
  simp only [be16, List.cons_append, List.nil_append, readBe16]
  have h1 : n / 256 < 256 := by omega
  have h2 : n / 256 % 256 = n / 256 := Nat.mod_eq_of_lt h1
  have h3 : n / 256 * 256 + n % 256 = n := by
    rw [Nat.mul_comm]
    exact Nat.div_add_mod n 256
  rw [h2, h3]

theorem readStr_encodeStr (s : List Nat) (hs : s.length < 65536)
    (rest : List Nat) : readStr (encodeStr s ++ rest) = some (s, rest) := by
  simp only [encodeStr, List.append_assoc, readStr,
    readBe16_be16 s.length hs (s ++ rest)]
  have hlen : ¬ (s ++ rest).length < s.length := by
    simp [List.length_append]
  rw [if_neg hlen]
  simp

theorem readPairs_encodePairs (h : HeaderBlock)
    (hs : ∀ p ∈ h, p.1.length < 65536 ∧ p.2.length < 65536)
    (rest : List Nat) :
    readPairs h.length (encodePairs h ++ rest) = some (h, rest) := by
  induction h with
  | nil => simp [readPairs, encodePairs]
  | cons p t ih =>
    obtain ⟨n, v⟩ := p
    have hp := hs (n, v) (List.mem_cons_self _ _)
    have ht : ∀ q ∈ t, q.1.length < 65536 ∧ q.2.length < 65536 :=
      fun q hq => hs q (List.mem_cons_of_mem _ hq)
    simp only [List.length_cons, encodePairs, List.append_assoc, readPairs]
    simp only [readStr_encodeStr n hp.1, readStr_encodeStr v hp.2, ih ht]

/-- Claim C1: for every header block H with no duplicated names and all
entries within the size limits (names and values at most 2^16 - 1 bytes,
at most 2^16 - 1 pairs), decoding the header block of a SYN_STREAM frame
built from H yields H again as an ordered list of (name, value) pairs, in
the original pair order. -/
theorem parseHeaderBlock_roundTrip (streamId assocId pri flags : Nat)
    (h : HeaderBlock)
    (hcount : h.length < 65536)
    (hsizes : ∀ p ∈ h, p.1.length < 65536 ∧ p.2.length < 65536)
    (hnodup : (h.map Prod.fst).Nodup) :
    parseSynStreamHeaderBlock (CreateSynStream streamId assocId pri flags h)
      = some h := by
  have hdrop :
      (CreateSynStream streamId assocId pri flags h).drop 18
        = encodeHeaderBlock h := by
    simp [CreateSynStream, be32, List.drop_append]
  simp only [parseSynStreamHeaderBlock, hdrop, encodeHeaderBlock]
  rw [show be16 h.length ++ encodePairs h
        = be16 h.length ++ (encodePairs h ++ []) by simp]
  simp only [ParseHeaderBlock, readBe16_be16 h.length hcount]
  rw [readPairs_encodePairs h hsizes []]
  simp [hnodup]

/-- Witness for claim C1 at a concrete two-entry header block. -/
theorem parseHeaderBlock_roundTrip_witness :
    parseSynStreamHeaderBlock
        (CreateSynStream 1 0 0 1 [([104, 111], [120]), ([109, 101], [])])
      = some [([104, 111], [120]), ([109, 101], [])] :=
  parseHeaderBlock_roundTrip 1 0 0 1 _ (by decide) (by decide) (by decide)

/-! ## Frame codec state machine (SpdyFramer)

The parser states and error codes below mirror the enums SpdyState and
SpdyError declared in src/net/spdy/spdy_framer.h lines 72-95.  The bodies
of ProcessInput and its helpers are absent from the snapshot, so the
transition behaviour is modelled from the spec (sections 4.1 and 9):
every frame begins with an 8-byte common header; control frames carry
version (15 bits), type (16 bits), flags (8 bits), length (24 bits); data
frames carry stream id (31 bits), flags (8 bits), length (24 bits); after
a frame is dispatched the parser goes to AUTO_RESET and then back to
READING_COMMON_HEADER without losing unused bytes; exactly one visitor
callback is invoked per emitted frame; any error latches the framer into
the ERROR state.  Compression is modelled as disabled (the framer exposes
set_enable_compression for exactly this purpose), so control payloads are
raw bytes. -/

/-- SPDY states, mirroring SpdyFramer::SpdyState. -/
inductive SpdyState
  | SPDY_ERROR
  | SPDY_DONE
  | SPDY_RESET
  | SPDY_AUTO_RESET
  | SPDY_READING_COMMON_HEADER
  | SPDY_INTERPRET_CONTROL_FRAME_COMMON_HEADER
  | SPDY_CONTROL_FRAME_PAYLOAD
  | SPDY_IGNORE_REMAINING_PAYLOAD
  | SPDY_FORWARD_STREAM_FRAME
  deriving DecidableEq, Repr

/-- SPDY error codes, mirroring SpdyFramer::SpdyError. -/
inductive SpdyError
  | SPDY_NO_ERROR
  | SPDY_INVALID_CONTROL_FRAME
  | SPDY_CONTROL_PAYLOAD_TOO_LARGE
  | SPDY_ZLIB_INIT_FAILURE
  | SPDY_UNSUPPORTED_VERSION
  | SPDY_DECOMPRESS_FAILURE
  | SPDY_COMPRESS_FAILURE
  deriving DecidableEq, Repr

/-- Visitor callbacks (SpdyFramerVisitorInterface): exactly one of the
three is invoked per emitted frame, synchronously within the feed call. -/
inductive SpdyEvent
  | OnError (code : SpdyError)
  | OnControl (version ctype flags : Nat) (payload : List Nat)
  | OnStreamFrameData (streamId : Nat) (data : List Nat) (fin : Bool)
  deriving DecidableEq, Repr

/-- The framer state, mirroring the private fields of SpdyFramer.
The cap field models the configurable control-payload limit (default
kControlFrameBufferMaxSize, 16 MiB). -/
structure Framer where
  state : SpdyState
  error_code : SpdyError
  cap : Nat
  headerBuf : List Nat
  remaining_control_payload : Nat
  remaining_payload : Nat
  payloadBuf : List Nat
  ctrlVersion : Nat
  ctrlType : Nat
  ctrlFlags : Nat
  dataStreamId : Nat
  dataFlags : Nat
  deriving DecidableEq, Repr

/-- Default control-frame payload cap: 16 MiB. -/
def kControlFrameBufferMaxSize : Nat := 16 * 1024 * 1024

/-- A freshly constructed framer with a given control-payload cap. -/
def freshFramer (cap : Nat) : Framer :=
  { state := .SPDY_READING_COMMON_HEADER
    error_code := .SPDY_NO_ERROR
    cap := cap
    headerBuf := []
    remaining_control_payload := 0
    remaining_payload := 0
    payloadBuf := []
    ctrlVersion := 0
    ctrlType := 0
    ctrlFlags := 0
    dataStreamId := 0
    dataFlags := 0 }

/-- SpdyFramer::Reset: clear per-frame state and return to reading a
common header. -/
def Framer.reset (f : Framer) : Framer :=
  { f with
    state := .SPDY_READING_COMMON_HEADER
    error_code := .SPDY_NO_ERROR
    headerBuf := []
    remaining_control_payload := 0
    remaining_payload := 0
    payloadBuf := [] }

/-- SpdyFramer::set_error: latch the error code, move to the error state,
and invoke the OnError visitor callback. -/
def Framer.setError (f : Framer) (e : SpdyError) : Framer × List SpdyEvent :=
  ({ f with state := .SPDY_ERROR, error_code := e }, [.OnError e])

/-- SpdyFramer::HasError, as declared in the header:
state_ == SPDY_ERROR. -/
def Framer.HasError (f : Framer) : Bool :=
  decide (f.state = .SPDY_ERROR)

/-- SpdyFramer::MessageFullyRead, as declared in the header. -/
def Framer.MessageFullyRead (f : Framer) : Bool :=
  decide (f.state = .SPDY_DONE ∨ f.state = .SPDY_AUTO_RESET)

/-- Modelled from the spec: interpret a complete 8-byte common header
(spec section 4.1; the bodies of ProcessCommonHeader and
ProcessControlFrameHeader are absent from the snapshot).  The first bit
distinguishes control (1) from data (0) frames.  A control frame with
version other than 2 is an INVALID_CONTROL_FRAME error; a control frame
whose 24-bit length exceeds the cap is CONTROL_PAYLOAD_TOO_LARGE.
Zero-length frames are dispatched immediately. -/
def interpretCommonHeader (f : Framer) (buf : List Nat) :
    Framer × List SpdyEvent :=
  match buf with
  | [b0, b1, b2, b3, b4, b5, b6, b7] =>
    let flen := b5 * 65536 + b6 * 256 + b7
    if 128 ≤ b0 then
      let version := b0 % 128 * 256 + b1
      let ctype := b2 * 256 + b3
      if version ≠ 2 then f.setError .SPDY_INVALID_CONTROL_FRAME
      else if f.cap < flen then f.setError .SPDY_CONTROL_PAYLOAD_TOO_LARGE
      else if flen = 0 then
        ({ f.reset with state := .SPDY_AUTO_RESET },
         [.OnControl version ctype b4 []])
      else
        ({ f with
            state := .SPDY_CONTROL_FRAME_PAYLOAD
            remaining_control_payload := flen
            payloadBuf := []
            ctrlVersion := version
            ctrlType := ctype
            ctrlFlags := b4 }, [])
    else
      let streamId := b0 * 16777216 + b1 * 65536 + b2 * 256 + b3
      if flen = 0 then
        ({ f.reset with state := .SPDY_AUTO_RESET },
         [.OnStreamFrameData streamId [] (decide (b4 % 2 = 1))])
      else
        ({ f with
            state := .SPDY_FORWARD_STREAM_FRAME
            remaining_payload := flen
            payloadBuf := []
            dataStreamId := streamId
            dataFlags := b4 }, [])
  | _ => (f, [])

/-- Accumulate common-header bytes; once 8 bytes are available the header
is interpreted (the transient INTERPRET_CONTROL_FRAME_COMMON_HEADER state
of the implementation consumes no input, so it is folded into this
step). -/
def stepReading (f : Framer) (b : Nat) : Framer × List SpdyEvent :=
  let buf := f.headerBuf ++ [b]
  if buf.length < 8 then ({ f with headerBuf := buf }, [])
  else interpretCommonHeader { f with headerBuf := [] } buf

/-- Consume one input byte in the current state, returning the new framer
state and the visitor callbacks emitted while consuming it. -/
def step (f : Framer) (b : Nat) : Framer × List SpdyEvent :=
  match f.state with
  | .SPDY_ERROR => (f, [])
  | .SPDY_DONE => (f, [])
  | .SPDY_RESET => stepReading f.reset b
  | .SPDY_AUTO_RESET => stepReading f.reset b
  | .SPDY_INTERPRET_CONTROL_FRAME_COMMON_HEADER => stepReading f.reset b
  | .SPDY_READING_COMMON_HEADER => stepReading f b
  | .SPDY_CONTROL_FRAME_PAYLOAD =>
    if f.remaining_control_payload ≤ 1 then
      ({ f.reset with state := .SPDY_AUTO_RESET },
       [.OnControl f.ctrlVersion f.ctrlType f.ctrlFlags
          (f.payloadBuf ++ [b])])
    else
      ({ f with
          payloadBuf := f.payloadBuf ++ [b]
          remaining_control_payload := f.remaining_control_payload - 1 }, [])
  | .SPDY_IGNORE_REMAINING_PAYLOAD =>
    if f.remaining_payload ≤ 1 then
      ({ f.reset with state := .SPDY_AUTO_RESET }, [])
    else ({ f with remaining_payload := f.remaining_payload - 1 }, [])
  | .SPDY_FORWARD_STREAM_FRAME =>
    if f.remaining_payload ≤ 1 then
      ({ f.reset with state := .SPDY_AUTO_RESET },
       [.OnStreamFrameData f.dataStreamId (f.payloadBuf ++ [b])
          (decide (f.dataFlags % 2 = 1))])
    else
      ({ f with
          payloadBuf := f.payloadBuf ++ [b]
          remaining_payload := f.remaining_payload - 1 }, [])

/-- Result of one ProcessInput call: the new framer, the visitor callbacks
emitted during the call, and the number of bytes consumed. -/
structure ProcessResult where
  framer : Framer
  events : List SpdyEvent
  consumed : Nat
  deriving DecidableEq, Repr

/-- SpdyFramer::ProcessInput, modelled from the spec: consume input bytes
one at a time, stopping (and consuming nothing further) once the framer is
in the ERROR or DONE state. -/
def ProcessInput (f : Framer) : List Nat → ProcessResult
  | [] => ⟨f, [], 0⟩
  | b :: rest =>
    if f.state = .SPDY_ERROR ∨ f.state = .SPDY_DONE then ⟨f, [], 0⟩
    else
      let r := ProcessInput (step f b).1 rest
      ⟨r.framer, (step f b).2 ++ r.events, r.consumed + 1⟩

/-- Feed a list of chunks to the framer with one ProcessInput call per
chunk, collecting all emitted visitor callbacks in order. -/
def processChunks (f : Framer) : List (List Nat) → Framer × List SpdyEvent
  | [] => (f, [])
  | c :: rest =>
    let r := ProcessInput f c
    let r2 := processChunks r.framer rest
    (r2.1, r.events ++ r2.2)

theorem processInput_stopped (f : Framer) (input : List Nat)
    (h : f.state = .SPDY_ERROR ∨ f.state = .SPDY_DONE) :
    ProcessInput f input = ⟨f, [], 0⟩ := by
  cases input with
  | nil => rfl
  | cons b rest => simp [ProcessInput, h]

theorem processInput_append (f : Framer) (xs ys : List Nat) :
    ProcessInput f (xs ++ ys)
      = ⟨(ProcessInput (ProcessInput f xs).framer ys).framer,
         (ProcessInput f xs).events
           ++ (ProcessInput (ProcessInput f xs).framer ys).events,
         (ProcessInput f xs).consumed
           + (ProcessInput (ProcessInput f xs).framer ys).consumed⟩ := by
  induction xs generalizing f with
  | nil => simp [ProcessInput]
  | cons b rest ih =>
    by_cases h : f.state = .SPDY_ERROR ∨ f.state = .SPDY_DONE
    · rw [List.cons_append, processInput_stopped f (b :: (rest ++ ys)) h,
        processInput_stopped f (b :: rest) h, processInput_stopped f ys h]
      simp
    · simp only [List.cons_append, ProcessInput, if_neg h, List.append_eq]
      rw [ih]
      simp only [List.append_assoc, ProcessResult.mk.injEq]
      exact ⟨trivial, trivial, by omega⟩

theorem processChunks_join (f : Framer) (chunks : List (List Nat)) :
    (processChunks f chunks).1 = (ProcessInput f chunks.flatten).framer ∧
    (processChunks f chunks).2 = (ProcessInput f chunks.flatten).events := by
  induction chunks generalizing f with
  | nil => simp [processChunks, List.flatten, ProcessInput]
  | cons c rest ih =>
    simp only [processChunks, List.flatten_cons, processInput_append]
    exact ⟨(ih (ProcessInput f c).framer).1, by
      rw [(ih (ProcessInput f c).framer).2]⟩

/-- Claim C3: for every byte sequence B, feeding B to a fresh framer one
byte per ProcessInput call produces exactly the same sequence of visitor
callbacks, in the same order, as feeding all of B in a single ProcessInput
call. -/
theorem processInput_byte_at_a_time (cap : Nat) (B : List Nat) :
    (processChunks (freshFramer cap) (B.map fun b => [b])).2
      = (ProcessInput (freshFramer cap) B).events := by
  have hjoin : (B.map fun b => [b]).flatten = B := by
    induction B with
    | nil => rfl
    | cons a t ih => simp [ih]
  rw [(processChunks_join (freshFramer cap) (B.map fun b => [b])).2, hjoin]

/-- Claim C2: once the framer has an error (HasError, i.e. the latched
ERROR state), every subsequent ProcessInput call consumes 0 bytes, leaves
the framer unchanged, and error_code still returns the latched error. -/
theorem processInput_error_latched (f : Framer) (input : List Nat)
    (h : f.HasError = true) :
    (ProcessInput f input).consumed = 0 ∧
    (ProcessInput f input).framer.error_code = f.error_code ∧
    (ProcessInput f input).framer.HasError = true := by
  have hs : f.state = .SPDY_ERROR := by
    simpa [Framer.HasError] using h
  rw [processInput_stopped f input (Or.inl hs)]
  exact ⟨rfl, rfl, h⟩

/-- A concrete framer that has latched an error: it has consumed a control
frame header carrying version 3. -/
def errFramerExample : Framer :=
  (ProcessInput (freshFramer kControlFrameBufferMaxSize)
    [128, 3, 0, 1, 0, 0, 0, 4]).framer

/-- Witness for claim C2 at a concrete latched framer and input. -/
theorem processInput_error_latched_witness :
    errFramerExample.HasError = true ∧
    (ProcessInput errFramerExample [1, 2, 3]).consumed = 0 ∧
    (ProcessInput errFramerExample [1, 2, 3]).framer.error_code
      = errFramerExample.error_code ∧
    (ProcessInput errFramerExample [1, 2, 3]).framer.HasError = true := by
  have h : errFramerExample.HasError = true := by decide
  exact ⟨h, processInput_error_latched errFramerExample [1, 2, 3] h⟩

/-- The 8 common-header bytes of a control frame with the given version
(15 bits), type (16 bits), flags (8 bits) and payload length (24 bits). -/
def mkControlFrameHeader (version ctype flags flen : Nat) : List Nat :=
  [128 + version / 256 % 128, version % 256, ctype / 256 % 256, ctype % 256,
   flags % 256, flen / 65536 % 256, flen / 256 % 256, flen % 256]

theorem processInput_fresh8 (cap b0 b1 b2 b3 b4 b5 b6 b7 : Nat)
    (rest : List Nat) :
    ProcessInput (freshFramer cap)
        (b0 :: b1 :: b2 :: b3 :: b4 :: b5 :: b6 :: b7 :: rest)
      = ⟨(ProcessInput
            (interpretCommonHeader (freshFramer cap)
              [b0, b1, b2, b3, b4, b5, b6, b7]).1 rest).framer,
         (interpretCommonHeader (freshFramer cap)
            [b0, b1, b2, b3, b4, b5, b6, b7]).2
           ++ (ProcessInput
                (interpretCommonHeader (freshFramer cap)
                  [b0, b1, b2, b3, b4, b5, b6, b7]).1 rest).events,
         (ProcessInput
            (interpretCommonHeader (freshFramer cap)
              [b0, b1, b2, b3, b4, b5, b6, b7]).1 rest).consumed + 8⟩ := by
  simp [ProcessInput, step, stepReading, freshFramer]

/-- Claim C4: a control frame whose version field is not 2 drives the
framer into the error state with error code SPDY_INVALID_CONTROL_FRAME
(and no other error kind), regardless of the rest of the frame. -/
theorem control_frame_bad_version (cap version ctype flags flen : Nat)
    (hv : version < 32768) (hv2 : version ≠ 2) (rest : List Nat) :
    (ProcessInput (freshFramer cap)
        (mkControlFrameHeader version ctype flags flen ++ rest)).framer.error_code
      = .SPDY_INVALID_CONTROL_FRAME ∧
    (ProcessInput (freshFramer cap)
        (mkControlFrameHeader version ctype flags flen ++ rest)).framer.HasError
      = true := by
  have hver : (128 + version / 256 % 128) % 128 * 256 + version % 256
      = version := by omega
  simp only [mkControlFrameHeader, List.cons_append, List.nil_append]
  rw [processInput_fresh8]
  simp only [interpretCommonHeader]
  rw [if_pos (by omega : 128 ≤ 128 + version / 256 % 128)]
  rw [hver, if_pos hv2]
  simp only [Framer.setError]
  rw [processInput_stopped _ rest (Or.inl rfl)]
  exact ⟨rfl, rfl⟩

/-- Witness for claim C4 at version 3. -/
theorem control_frame_bad_version_witness :
    (3 : Nat) < 32768 ∧ (3 : Nat) ≠ 2 ∧
    ((ProcessInput (freshFramer kControlFrameBufferMaxSize)
        (mkControlFrameHeader 3 1 0 0 ++ [])).framer.error_code
      = .SPDY_INVALID_CONTROL_FRAME ∧
     (ProcessInput (freshFramer kControlFrameBufferMaxSize)
        (mkControlFrameHeader 3 1 0 0 ++ [])).framer.HasError = true) :=
  ⟨by decide, by decide,
   control_frame_bad_version kControlFrameBufferMaxSize 3 1 0 0
     (by decide) (by decide) []⟩

/-- Modelled from the spec: the status enum the session's run entry point
returns to the collaborator (spec section 7 propagation policy; the
SpdySession code is absent from the snapshot). -/
inductive SessionStatus
  | Clean
  | PeerClosed
  | ProtocolError
  | TransportError
  deriving DecidableEq, Repr

/-- Modelled from the spec: how the session concludes after driving the
framer over ingress bytes (spec section 7: framing errors such as an
oversize control payload are session-fatal, so the session fails and its
run entry point returns ProtocolError; the SpdySession code is absent from
the snapshot).  Without a framer error the session is not failed by the
framer. -/
def sessionIngressStatus (f : Framer) : SessionStatus :=
  if f.HasError then .ProtocolError else .Clean

/-- Claim C5: a version-2 control frame whose declared 24-bit payload
length exceeds the configured cap latches the framer into the error state
with error code SPDY_CONTROL_PAYLOAD_TOO_LARGE, the only visitor callback
emitted is OnError (the frame is never dispatched through OnControl), and
the session fails: its run concludes with ProtocolError. -/
theorem control_frame_payload_too_large (cap ctype flags flen : Nat)
    (hlen : flen < 16777216) (hcap : cap < flen) (rest : List Nat) :
    (ProcessInput (freshFramer cap)
        (mkControlFrameHeader 2 ctype flags flen ++ rest)).framer.error_code
      = .SPDY_CONTROL_PAYLOAD_TOO_LARGE ∧
    (ProcessInput (freshFramer cap)
        (mkControlFrameHeader 2 ctype flags flen ++ rest)).framer.HasError
      = true ∧
    (ProcessInput (freshFramer cap)
        (mkControlFrameHeader 2 ctype flags flen ++ rest)).events
      = [.OnError .SPDY_CONTROL_PAYLOAD_TOO_LARGE] ∧
    sessionIngressStatus (ProcessInput (freshFramer cap)
        (mkControlFrameHeader 2 ctype flags flen ++ rest)).framer
      = .ProtocolError := by
  have hflen : flen / 65536 % 256 * 65536 + flen / 256 % 256 * 256 + flen % 256
      = flen := by omega
  simp only [mkControlFrameHeader, List.cons_append, List.nil_append]
  rw [processInput_fresh8]
  simp only [interpretCommonHeader]
  rw [if_pos (by omega : 128 ≤ 128 + 2 / 256 % 128)]
  rw [show (128 + 2 / 256 % 128) % 128 * 256 + 2 % 256 = 2 by omega]
  rw [if_neg (by omega : ¬ (2 : Nat) ≠ 2)]
  rw [hflen, if_pos (show (freshFramer cap).cap < flen from hcap)]
  simp only [Framer.setError]
  rw [processInput_stopped _ rest (Or.inl rfl)]
  exact ⟨rfl, rfl, rfl, rfl⟩

/-- Witness for claim C5 with a cap of 4 bytes and a declared payload
length of 5 bytes. -/
theorem control_frame_payload_too_large_witness :
    (5 : Nat) < 16777216 ∧ (4 : Nat) < 5 ∧
    ((ProcessInput (freshFramer 4)
        (mkControlFrameHeader 2 1 0 5 ++ [])).framer.error_code
      = .SPDY_CONTROL_PAYLOAD_TOO_LARGE ∧
     (ProcessInput (freshFramer 4)
        (mkControlFrameHeader 2 1 0 5 ++ [])).framer.HasError = true ∧
     (ProcessInput (freshFramer 4)
        (mkControlFrameHeader 2 1 0 5 ++ [])).events
      = [.OnError .SPDY_CONTROL_PAYLOAD_TOO_LARGE] ∧
     sessionIngressStatus (ProcessInput (freshFramer 4)
        (mkControlFrameHeader 2 1 0 5 ++ [])).framer = .ProtocolError) :=
  ⟨by decide, by decide,
   control_frame_payload_too_large 4 1 0 5 (by decide) (by decide) []⟩

end Spdy

namespace ModSpdy

/-! ## Apache hook functions (src/mod_spdy/mod_spdy.cc)

Hook return values follow Apache httpd: OK is 0, DECLINED is -1.  The
connection context holds the per-connection state the hooks consult. -/

/-- Apache hook return value OK. -/
def OK : Int := 0

/-- Apache hook return value DECLINED. -/
def DECLINED : Int := -1

/-- APR status code APR_SUCCESS. -/
def APR_SUCCESS : Int := 0

/-- The advertised protocol string kSpdyProtocolName (mod_spdy.cc line
58). -/
def kSpdyProtocolName : String := "spdy/2"

/-- The NPN negotiation state of a connection
(mod_spdy::ConnectionContext). -/
inductive NpnState
  | NOT_DONE_YET
  | USING_SPDY
  | NOT_USING_SPDY
  deriving DecidableEq, Repr

/-- The per-connection context: whether this is a slave connection and
how NPN negotiation stands. -/
structure ConnectionContext where
  is_slave : Bool
  npn_state : NpnState
  deriving DecidableEq, Repr

/-- AdvertiseNpnProtocols (mod_spdy.cc lines 371-384): if the config has
disabled mod_spdy for this server, decline without touching the protocol
list; otherwise push kSpdyProtocolName onto the list and return OK. -/
def AdvertiseNpnProtocols (spdy_enabled : Bool) (protos : List String) :
    Int × List String :=
  if !spdy_enabled then (DECLINED, protos)
  else (OK, protos ++ [kSpdyProtocolName])

/-- Claim C6: with spdy_enabled true the NPN advertisement hook appends
exactly the literal string "spdy/2" to the advertised protocol list and
returns OK; with spdy_enabled false it declines and leaves the list
unchanged. -/
theorem advertiseNpnProtocols_spec (protos : List String) :
    AdvertiseNpnProtocols true protos = (OK, protos ++ ["spdy/2"]) ∧
    AdvertiseNpnProtocols false protos = (DECLINED, protos) :=
  ⟨rfl, rfl⟩

/-- OnNextProtocolNegotiated (mod_spdy.cc lines 388-426): with no context
or a slave connection, decline; if NPN already happened (npn_state is not
NOT_DONE_YET), decline and leave the state alone; otherwise set USING_SPDY
exactly when the negotiated name has the length of kSpdyProtocolName and
its first proto_name_len bytes match it (the strncmp comparison), else
NOT_USING_SPDY. -/
def OnNextProtocolNegotiated (context : Option ConnectionContext)
    (protoName : List Char) : Int × Option ConnectionContext :=
  match context with
  | none => (DECLINED, none)
  | some ctx =>
    if ctx.is_slave then (DECLINED, some ctx)
    else if ctx.npn_state ≠ .NOT_DONE_YET then (DECLINED, some ctx)
    else if protoName.length = kSpdyProtocolName.toList.length ∧
        protoName.take kSpdyProtocolName.toList.length
          = kSpdyProtocolName.toList then
      (OK, some { ctx with npn_state := .USING_SPDY })
    else (OK, some { ctx with npn_state := .NOT_USING_SPDY })

theorem strncmp_cond_iff (protoName : List Char) :
    (protoName.length = kSpdyProtocolName.toList.length ∧
        protoName.take kSpdyProtocolName.toList.length
          = kSpdyProtocolName.toList)
      ↔ protoName = kSpdyProtocolName.toList := by
  constructor
  · rintro ⟨hlen, htake⟩
    have : protoName.take kSpdyProtocolName.toList.length = protoName := by
      apply List.take_of_length_le
      omega
    rw [this] at htake
    exact htake
  · rintro rfl
    exact ⟨rfl, List.take_of_length_le (le_refl _)⟩

/-- Claim C10 (amended): for a non-slave connection context the hook
changes npn_state only when it is NOT_DONE_YET (otherwise it declines and
leaves the state unchanged), and in that case sets USING_SPDY exactly when
the negotiated name equals "spdy/2" byte for byte, including its length,
and NOT_USING_SPDY otherwise; a slave context always declines
unchanged. -/
theorem onNextProtocolNegotiated_spec (ctx : ConnectionContext)
    (protoName : List Char) :
    (ctx.npn_state ≠ .NOT_DONE_YET →
      OnNextProtocolNegotiated (some ctx) protoName = (DECLINED, some ctx)) ∧
    (ctx.is_slave = false → ctx.npn_state = .NOT_DONE_YET →
      OnNextProtocolNegotiated (some ctx) protoName
        = (OK, some { ctx with npn_state :=
            if protoName = kSpdyProtocolName.toList then .USING_SPDY
            else .NOT_USING_SPDY })) ∧
    (ctx.is_slave = true →
      OnNextProtocolNegotiated (some ctx) protoName = (DECLINED, some ctx)) := by
  refine ⟨fun hns => ?_, fun hsl hns => ?_, fun hsl => ?_⟩
  · simp only [OnNextProtocolNegotiated]
    by_cases h : ctx.is_slave <;> simp [h, hns]
  · simp only [OnNextProtocolNegotiated, hsl, if_false, Bool.false_eq_true,
      hns, ne_eq, not_true_eq_false]
    by_cases h : protoName = kSpdyProtocolName.toList
    · rw [if_pos ((strncmp_cond_iff protoName).mpr h), if_pos h]
    · rw [if_neg (fun hc => h ((strncmp_cond_iff protoName).mp hc)), if_neg h]
  · simp [OnNextProtocolNegotiated, hsl]

/-- Counterexample to claim C10 as stated: a slave connection context in
state NOT_DONE_YET, offered exactly "spdy/2", is declined and keeps state
NOT_DONE_YET instead of being set to USING_SPDY. -/
theorem onNextProtocolNegotiated_slave_counterexample :
    OnNextProtocolNegotiated
        (some { is_slave := true, npn_state := .NOT_DONE_YET })
        kSpdyProtocolName.toList
      = (DECLINED, some { is_slave := true, npn_state := .NOT_DONE_YET }) ∧
    ({ is_slave := true, npn_state := .NOT_DONE_YET } : ConnectionContext).npn_state
      ≠ .USING_SPDY := by
  exact ⟨rfl, by decide⟩

/-- Witness for claim C10 at a non-slave context and the matching
protocol name. -/
theorem onNextProtocolNegotiated_witness :
    OnNextProtocolNegotiated
        (some { is_slave := false, npn_state := .NOT_DONE_YET })
        kSpdyProtocolName.toList
      = (OK, some { is_slave := false, npn_state := .USING_SPDY }) := by
  have h := (onNextProtocolNegotiated_spec
    { is_slave := false, npn_state := .NOT_DONE_YET }
    kSpdyProtocolName.toList).2.1 rfl rfl
  rw [h]
  simp

/-- The inputs ProcessConnection (mod_spdy.cc lines 287-367) consults: the
scoreboard hook, the connection context, the per-process thread pool
handle (gPerProcessThreadPool, NULL if ChildInit failed to create it), and
the status of the speculative read that forces the SSL handshake. -/
structure MasterConn where
  has_scoreboard : Bool
  context : Option ConnectionContext
  thread_pool : Bool
  spec_read_status : Int
  deriving DecidableEq, Repr

/-- ProcessConnection (mod_spdy.cc lines 287-367).  The returned Bool
records whether a SpdySession was constructed and its Run loop invoked;
the Int is the hook return value handed back to Apache. -/
def ProcessConnection (c : MasterConn) : Int × Bool :=
  if !c.has_scoreboard then (DECLINED, false)
  else
    match c.context with
    | none => (DECLINED, false)
    | some ctx =>
      if ctx.is_slave then (DECLINED, false)
      else if !c.thread_pool then (DECLINED, false)
      else if c.spec_read_status ≠ APR_SUCCESS then (DECLINED, false)
      else if ctx.npn_state ≠ .USING_SPDY then (DECLINED, false)
      else (OK, true)

/-- Claim C8: when the per-process thread pool is unavailable, the
connection-processing entry point returns DECLINED to the collaborator
without ever constructing a SPDY session or invoking its run loop,
whatever the rest of the connection state. -/
theorem processConnection_no_executor (c : MasterConn)
    (h : c.thread_pool = false) :
    ProcessConnection c = (DECLINED, false) := by
  obtain ⟨sb, ctxo, tp, st⟩ := c
  simp only at h
  subst h
  rcases ctxo with _ | ⟨sl, ns⟩ <;> cases sb <;> try cases sl
  all_goals rfl

/-- Witness for claim C8: a secure, negotiated connection whose only
defect is the missing thread pool is declined with no session run. -/
theorem processConnection_no_executor_witness :
    ProcessConnection
        { has_scoreboard := true
          context := some { is_slave := false, npn_state := .USING_SPDY }
          thread_pool := false
          spec_read_status := APR_SUCCESS }
      = (DECLINED, false) :=
  processConnection_no_executor _ rfl

/-! ## Output filters (AntiChunkingFilter and HttpToSpdyFilter) -/

/-- Lowercase a string character by character, the normal form under
which apr tables compare keys case-insensitively. -/
def strLower (s : String) : String := ⟨s.data.map Char.toLower⟩

/-- apr_table_unset: remove every entry whose key matches the given key
case-insensitively, preserving the order of the others. -/
def apr_table_unset (t : List (String × String)) (key : String) :
    List (String × String) :=
  t.filter fun p => !(strLower p.1 == strLower key)

/-- The HttpToSpdyFilter hook function (mod_spdy.cc lines 123-151): remove
the Transfer-Encoding header from headers_out so that it does not appear
in the SPDY headers, then hand the brigade to the HttpToSpdyFilter
class. -/
def HttpToSpdyFilterHeaders (headers_out : List (String × String)) :
    List (String × String) :=
  apr_table_unset headers_out "Transfer-Encoding"

/-- Modelled from the spec: the SYN_REPLY header block is the status and
version entries followed by the remaining response headers with their
names lowercased (spec section 4.3; the body of HttpToSpdyFilter::Write is
absent from the snapshot). -/
def buildSynReplyBlock (status version : String)
    (headers : List (String × String)) : List (String × String) :=
  ("status", status) :: ("version", version)
    :: headers.map fun p => (strLower p.1, p.2)

/-- Claim C7: the filter removes every Transfer-Encoding header (in
particular a chunked one) before the SYN_REPLY header block is built, so
no entry of the emitted block is named transfer-encoding, and all headers
with any other name pass through unchanged and in order. -/
theorem httpToSpdy_strips_transfer_encoding
    (headers : List (String × String)) (status version : String) :
    (∀ p ∈ buildSynReplyBlock status version (HttpToSpdyFilterHeaders headers),
      p.1 ≠ "transfer-encoding") ∧
    HttpToSpdyFilterHeaders headers
      = headers.filter fun p => !(strLower p.1 == "transfer-encoding") := by
  have hTE : strLower "Transfer-Encoding" = "transfer-encoding" := by decide
  constructor
  · intro p hp
    simp only [buildSynReplyBlock, List.mem_cons, List.mem_map] at hp
    rcases hp with h | h | ⟨q, hq, rfl⟩
    · subst h
      show "status" ≠ "transfer-encoding"
      decide
    · subst h
      show "version" ≠ "transfer-encoding"
      decide
    · have hmem : q ∈ headers ∧ ¬ strLower q.1 = strLower "Transfer-Encoding" := by
        simpa [HttpToSpdyFilterHeaders, apr_table_unset] using hq
      exact fun hc => hmem.2 (by rw [hTE]; exact hc)
  · simp only [HttpToSpdyFilterHeaders, apr_table_unset, hTE]

/-! ## InputFilterInputStream
(src/mod_spdy/apache/input_filter_input_stream.cc)

Brigades are lists of buckets; a bucket is a contiguous byte string.  The
next filter is modelled as the list of buckets it has yet to deliver;
ap_get_brigade in AP_MODE_READBYTES mode returns at most the requested
number of bytes, taking buckets in order and splitting the bucket that
would cross the limit. -/

/-- A bucket: a contiguous byte string. -/
abbrev Bucket := List Nat

/-- A brigade: an ordered list of buckets. -/
abbrev Brigade := List Bucket

/-- apr_brigade_length: the total number of data bytes in a brigade. -/
def brigadeLen (b : Brigade) : Nat := (b.map List.length).sum

/-- The byte string carried by a brigade, in order (what
apr_brigade_flatten copies from). -/
def flattenBrigade (b : Brigade) : List Nat := b.flatten

/-- APR status code APR_EOF, returned by the next filter once the stream
is exhausted. -/
def APR_EOF : Int := 70014

/-- One ap_get_brigade read in AP_MODE_READBYTES mode: deliver the pending
buckets in order up to n bytes, splitting the bucket that would cross the
limit, and return the taken buckets together with what remains pending. -/
def takeBytes (n : Nat) : List Bucket → Brigade × List Bucket
  | [] => ([], [])
  | b :: rest =>
    if n = 0 then ([], b :: rest)
    else if b.length ≤ n then
      ((takeBytes (n - b.length) rest).1.cons b, (takeBytes (n - b.length) rest).2)
    else ([b.take n], b.drop n :: rest)

/-- InputFilterInputStream::PullBytesFromNextFilter: loop reading from the
next filter until the brigade holds at least num_bytes bytes or the filter
reports a non-success status.  Under the AP_MODE_READBYTES contract each
read returns at most the bytes still needed, so the loop body runs at most
twice; it is written here in that unrolled form: if one read satisfies the
request the next length check succeeds (APR_SUCCESS), otherwise the source
was exhausted and the following read reports APR_EOF, ending the loop. -/
def PullBytesFromNextFilter (brigade : Brigade) (source : List Bucket)
    (numBytes : Nat) : Brigade × List Bucket × Int :=
  if numBytes ≤ brigadeLen brigade then (brigade, source, ModSpdy.APR_SUCCESS)
  else
    if numBytes ≤ brigadeLen (brigade
        ++ (takeBytes (numBytes - brigadeLen brigade) source).1) then
      (brigade ++ (takeBytes (numBytes - brigadeLen brigade) source).1,
       (takeBytes (numBytes - brigadeLen brigade) source).2, ModSpdy.APR_SUCCESS)
    else
      (brigade ++ (takeBytes (numBytes - brigadeLen brigade) source).1,
       (takeBytes (numBytes - brigadeLen brigade) source).2, APR_EOF)

/-- apr_brigade_partition: adjust bucket boundaries so that the given
offset falls on a boundary, and return the bucket that begins at that
offset (none if the offset is at or past the end of the brigade). -/
def partitionAt : Brigade → Nat → Brigade × Option Bucket
  | [], _ => ([], none)
  | b :: rest, point =>
    if point = 0 then (b :: rest, some b)
    else if point < b.length then
      (b.take point :: b.drop point :: rest, some (b.drop point))
    else
      ((partitionAt rest (point - b.length)).1.cons b,
       (partitionAt rest (point - b.length)).2)

/-- InputFilterInputStream::FinishRead: if the brigade holds more than
data_len bytes, partition it at data_len, reporting the bucket at that
offset through extra; flatten at most data_len bytes out of the
brigade. -/
def FinishRead (brigade : Brigade) (dataLen : Nat) :
    List Nat × Option Bucket :=
  if dataLen < brigadeLen brigade then
    ((flattenBrigade (partitionAt brigade dataLen).1).take dataLen,
     (partitionAt brigade dataLen).2)
  else ((flattenBrigade brigade).take dataLen, none)

/-- The state of an InputFilterInputStream: its internal brigade, the
buckets the next filter has yet to deliver, and the last status returned
by the next filter. -/
structure StreamState where
  brigade : Brigade
  source : List Bucket
  next_filter_rv : Int
  deriving DecidableEq, Repr

/-- InputFilterInputStream::Read: pull bytes from the next filter, flatten
up to data_len of them out through FinishRead, clean up the brigade, and
re-insert the extra bucket if the partition produced one. -/
def Read (st : StreamState) (dataLen : Nat) : List Nat × StreamState :=
  let pr := PullBytesFromNextFilter st.brigade st.source dataLen
  let fr := FinishRead pr.1 dataLen
  (fr.1,
   { brigade := match fr.2 with
       | none => []
       | some e => [e]
     source := pr.2.1
     next_filter_rv := pr.2.2 })

theorem takeBytes_flatten (n : Nat) (source : List Bucket) :
    (takeBytes n source).1.flatten ++ (takeBytes n source).2.flatten
      = source.flatten := by
  induction source generalizing n with
  | nil => simp [takeBytes]
  | cons b rest ih =>
    simp only [takeBytes]
    by_cases h0 : n = 0
    · simp [h0]
    · rw [if_neg h0]
      by_cases hb : b.length ≤ n
      · rw [if_pos hb]
        simp only [List.cons, List.flatten_cons, List.append_assoc]
        rw [ih (n - b.length)]
      · rw [if_neg hb]
        simp only [List.flatten_cons, List.flatten_nil, List.append_nil]
        rw [← List.append_assoc, List.take_append_drop]

theorem takeBytes_len (n : Nat) (source : List Bucket) :
    brigadeLen (takeBytes n source).1 ≤ n := by
  induction source generalizing n with
  | nil => simp [takeBytes, brigadeLen]
  | cons b rest ih =>
    simp only [takeBytes]
    by_cases h0 : n = 0
    · simp [h0, brigadeLen]
    · rw [if_neg h0]
      by_cases hb : b.length ≤ n
      · rw [if_pos hb]
        have h2 := ih (n - b.length)
        show brigadeLen (b :: (takeBytes (n - b.length) rest).1) ≤ n
        simp only [brigadeLen, List.map_cons, List.sum_cons] at h2 ⊢
        omega
      · rw [if_neg hb]
        simp only [brigadeLen, List.map_cons, List.map_nil, List.sum_cons,
          List.sum_nil, List.length_take]
        omega

theorem brigadeLen_eq_flatten_length (b : Brigade) :
    brigadeLen b = b.flatten.length := by
  induction b with
  | nil => rfl
  | cons x rest ih =>
    simp only [brigadeLen, List.map_cons, List.sum_cons, List.flatten_cons,
      List.length_append]
    simp only [brigadeLen] at ih
    omega

/-- Claim C9: starting from a stream whose internal brigade is empty (as
every reachable state has, see the third conjunct), a Read of data_len
bytes returns at most data_len bytes, those bytes are the earliest bytes
the next filter delivers, in order, and no byte is lost or duplicated: the
bytes available before the call are exactly the returned bytes followed by
the bytes still pending afterwards, and the internal brigade is empty
again afterwards. -/
theorem read_spec (st : StreamState) (dataLen : Nat)
    (h : st.brigade = []) :
    (Read st dataLen).1.length ≤ dataLen ∧
    st.source.flatten
      = (Read st dataLen).1 ++ (Read st dataLen).2.source.flatten ∧
    (Read st dataLen).2.brigade = [] := by
  obtain ⟨brig, source, rv⟩ := st
  simp only at h
  subst h
  have hnil : brigadeLen ([] : Brigade) = 0 := rfl
  by_cases h0 : dataLen = 0
  · subst h0
    simp [Read, PullBytesFromNextFilter, FinishRead, brigadeLen,
      flattenBrigade]
  · have hlen : brigadeLen (takeBytes dataLen source).1 ≤ dataLen :=
      takeBytes_len dataLen source
    have hflat := takeBytes_flatten dataLen source
    simp only [Read, PullBytesFromNextFilter, hnil, Nat.sub_zero,
      List.nil_append]
    rw [if_neg (by omega)]
    simp only [apply_ite Prod.fst, apply_ite Prod.snd, ite_self]
    simp only [FinishRead, flattenBrigade]
    rw [if_neg (by omega)]
    refine ⟨?_, ?_, rfl⟩
    · rw [List.length_take]
      exact Nat.min_le_left _ _
    · have htake : ((takeBytes dataLen source).1.flatten).take dataLen
          = (takeBytes dataLen source).1.flatten := by
        apply List.take_of_length_le
        rw [← brigadeLen_eq_flatten_length]
        exact hlen
      rw [htake]
      exact hflat.symm

/-- A concrete stream state for the witness: empty internal brigade, two
pending buckets of 3 and 1 bytes. -/
def exampleStream : StreamState :=
  { brigade := [], source := [[1, 2, 3], [4]], next_filter_rv := 0 }

/-- Witness for claim C9: reading 2 bytes from the concrete stream. -/
theorem read_spec_witness :
    (Read exampleStream 2).1.length ≤ 2 ∧
    exampleStream.source.flatten
      = (Read exampleStream 2).1 ++ (Read exampleStream 2).2.source.flatten ∧
    (Read exampleStream 2).2.brigade = [] :=
  read_spec exampleStream 2 rfl

end ModSpdy
